import Mathlib

/-!
A shallow embedding of the slice99 library (`slice99.h`): the untyped
`Slice99` fat pointer and its operations.

Modelling conventions:

* Pointers are byte addresses of type `Int`; the null pointer is `0`.
  `size_t` values (`item_size`, `len`) are `Nat`; `ptrdiff_t` values are
  `Int`, matching the signed pointer arithmetic of the source.
* Memory is a total map from byte addresses to byte values,
  `Mem := Int → Nat`.  Mutating operations take a memory and return the
  updated memory.
* A failed `SLICE99_ASSERT` aborts the program; a function that can fail
  an assertion returns `Option` and yields `none` exactly when an assert
  in the source would fire.
-/

/-- `typedef struct { void *ptr; size_t item_size; size_t len; } Slice99;` -/
structure Slice99 where
  ptr : Int
  item_size : Nat
  len : Nat
deriving DecidableEq, Repr

/-- `Slice99_new`: asserts `ptr` non-null and `item_size > 0`, then returns
the triple unchanged. -/
def Slice99_new (ptr : Int) (item_size len : Nat) : Option Slice99 :=
  if ptr ≠ 0 then
    if 0 < item_size then some ⟨ptr, item_size, len⟩ else none
  else none

/-- `Slice99_from_str`: asserts `str` non-null, then
`Slice99_new(str, sizeof(char), SLICE99_STRLEN(str))`.  `SLICE99_STRLEN` is
an injectable collaborator macro, modelled as the function argument
`strlenFn`. -/
def Slice99_from_str (strlenFn : Int → Nat) (str : Int) : Option Slice99 :=
  if str ≠ 0 then Slice99_new str 1 (strlenFn str) else none

/-- `Slice99_from_ptrdiff`: asserts `start` and `end` non-null, computes
`diff = (char *)end - (char *)start`, asserts `diff >= 0` and
`(size_t)diff % item_size == 0`, then
`Slice99_new(start, item_size, (size_t)(diff / (ptrdiff_t)item_size))`.
(`diff ≥ 0` holds at the division, so Euclidean and C truncating division
agree.) -/
def Slice99_from_ptrdiff (start end_ : Int) (item_size : Nat) : Option Slice99 :=
  if start ≠ 0 then
    if end_ ≠ 0 then
      if 0 ≤ end_ - start then
        if (end_ - start).toNat % item_size = 0 then
          Slice99_new start item_size ((end_ - start) / (item_size : Int)).toNat
        else none
      else none
    else none
  else none

/-- The address of the static empty string literal `""` used by
`Slice99_empty`: some fixed non-null address. -/
def emptyLitAddr : Int := 1

/-- `Slice99_empty`: asserts `item_size > 0`, then `Slice99_new("", item_size, 0)`. -/
def Slice99_empty (item_size : Nat) : Option Slice99 :=
  if 0 < item_size then Slice99_new emptyLitAddr item_size 0 else none

/-- `Slice99_update_len`: `Slice99_new(self.ptr, self.item_size, new_len)`. -/
def Slice99_update_len (self : Slice99) (new_len : Nat) : Option Slice99 :=
  Slice99_new self.ptr self.item_size new_len

/-- `Slice99_is_empty`: `self.len == 0`. -/
def Slice99_is_empty (self : Slice99) : Bool :=
  self.len = 0

/-- `Slice99_size`: `self.item_size * self.len`. -/
def Slice99_size (self : Slice99) : Nat :=
  self.item_size * self.len

/-- `Slice99_get`: `(char *)self.ptr + i * (ptrdiff_t)self.item_size`. -/
def Slice99_get (self : Slice99) (i : Int) : Int :=
  self.ptr + i * (self.item_size : Int)

/-- `Slice99_sub`: asserts `start_idx <= end_idx`, then
`Slice99_from_ptrdiff(Slice99_get(self, start_idx), Slice99_get(self, end_idx), self.item_size)`. -/
def Slice99_sub (self : Slice99) (start_idx end_idx : Int) : Option Slice99 :=
  if start_idx ≤ end_idx then
    Slice99_from_ptrdiff (Slice99_get self start_idx) (Slice99_get self end_idx) self.item_size
  else none

/-- `Slice99_advance`: `Slice99_sub(self, offset, (ptrdiff_t)self.len)`. -/
def Slice99_advance (self : Slice99) (offset : Int) : Option Slice99 :=
  Slice99_sub self offset (self.len : Int)

/-- Byte-addressed memory. -/
def Mem : Type := Int → Nat

/-- `SLICE99_MEMCPY(dst, src, n)`: the updated memory where the `n` bytes at
`dst` hold the bytes read from `src` in the original memory and every other
address is unchanged. -/
def memcpy (m : Mem) (dst src : Int) (n : Nat) : Mem :=
  fun a => if dst ≤ a ∧ a < dst + (n : Int) then m (src + (a - dst)) else m a

/-- `SLICE99_MEMCMP(p, q, n) == 0`: the `n` bytes at `p` equal the `n` bytes
at `q`. -/
def memeq (m : Mem) (p q : Int) : Nat → Bool
  | 0 => true
  | n + 1 => memeq m p q n && (m (p + (n : Int)) == m (q + (n : Int)))

/-- `Slice99_primitive_eq`:
`Slice99_size(lhs) != Slice99_size(rhs) ? false : SLICE99_MEMCMP(lhs.ptr, rhs.ptr, Slice99_size(lhs)) == 0`. -/
def Slice99_primitive_eq (lhs rhs : Slice99) (m : Mem) : Bool :=
  if Slice99_size lhs ≠ Slice99_size rhs then false
  else memeq m lhs.ptr rhs.ptr (Slice99_size lhs)

/-- `Slice99_primitive_starts_with`:
`Slice99_size(self) < Slice99_size(prefix) ? false : Slice99_primitive_eq(Slice99_sub(self, 0, (ptrdiff_t)prefix.len), prefix)`. -/
def Slice99_primitive_starts_with (self pre : Slice99) (m : Mem) : Option Bool :=
  if Slice99_size self < Slice99_size pre then some false
  else (Slice99_sub self 0 (pre.len : Int)).map fun s => Slice99_primitive_eq s pre m

/-- `Slice99_primitive_ends_with`:
`Slice99_size(self) < Slice99_size(postfix) ? false : Slice99_primitive_eq(Slice99_sub(self, (ptrdiff_t)self.len - (ptrdiff_t)postfix.len, (ptrdiff_t)self.len), postfix)`. -/
def Slice99_primitive_ends_with (self post : Slice99) (m : Mem) : Option Bool :=
  if Slice99_size self < Slice99_size post then some false
  else
    (Slice99_sub self ((self.len : Int) - (post.len : Int)) (self.len : Int)).map
      fun s => Slice99_primitive_eq s post m

/-- The loop of `Slice99_eq`, instrumented with the list of indices at which
the user comparator is invoked: `for (i = 0; i < len; i++) if (cmp(...) != 0)
return false; return true;`, run over the given index list. -/
def eqGo (lhs rhs : Slice99) (cmp : Int → Int → Int) : List Nat → List Nat × Bool
  | [] => ([], true)
  | i :: rest =>
    if cmp (Slice99_get lhs (i : Int)) (Slice99_get rhs (i : Int)) ≠ 0 then ([i], false)
    else
      let r := eqGo lhs rhs cmp rest
      (i :: r.1, r.2)

/-- `Slice99_eq`: asserts `lhs.item_size == rhs.item_size` (the comparator,
being a Lean function, is never null); returns `false` if the lengths differ,
otherwise runs the comparator loop over indices `0 .. lhs.len - 1`. -/
def Slice99_eq (lhs rhs : Slice99) (cmp : Int → Int → Int) : Option Bool :=
  if lhs.item_size = rhs.item_size then
    some
      (if lhs.len ≠ rhs.len then false
       else (eqGo lhs rhs cmp (List.range lhs.len)).2)
  else none

/-- The indices at which `Slice99_eq` invokes the user comparator: empty when
the lengths differ (the loop is never entered), otherwise the trace of the
comparator loop. -/
def Slice99_eqCalls (lhs rhs : Slice99) (cmp : Int → Int → Int) : List Nat :=
  if lhs.len ≠ rhs.len then []
  else (eqGo lhs rhs cmp (List.range lhs.len)).1

/-- `Slice99_starts_with`: asserts `self.item_size == prefix.item_size`;
`self.len < prefix.len ? false : Slice99_eq(Slice99_sub(self, 0, (ptrdiff_t)prefix.len), prefix, cmp)`. -/
def Slice99_starts_with (self pre : Slice99) (cmp : Int → Int → Int) : Option Bool :=
  if self.item_size = pre.item_size then
    if self.len < pre.len then some false
    else (Slice99_sub self 0 (pre.len : Int)).bind fun s => Slice99_eq s pre cmp
  else none

/-- `Slice99_ends_with`: asserts `self.item_size == postfix.item_size`;
`self.len < postfix.len ? false : Slice99_eq(Slice99_sub(self, (ptrdiff_t)self.len - (ptrdiff_t)postfix.len, (ptrdiff_t)self.len), postfix, cmp)`. -/
def Slice99_ends_with (self post : Slice99) (cmp : Int → Int → Int) : Option Bool :=
  if self.item_size = post.item_size then
    if self.len < post.len then some false
    else
      (Slice99_sub self ((self.len : Int) - (post.len : Int)) (self.len : Int)).bind
        fun s => Slice99_eq s post cmp
  else none

/-- `Slice99_swap`: asserts `backup` non-null, then three `SLICE99_MEMCPY`
calls: item `lhs` to `backup`, item `rhs` to item `lhs`, `backup` to item
`rhs`. -/
def Slice99_swap (self : Slice99) (lhs rhs : Int) (backup : Int) (m : Mem) : Option Mem :=
  if backup ≠ 0 then
    let m1 := memcpy m backup (Slice99_get self lhs) self.item_size
    let m2 := memcpy m1 (Slice99_get self lhs) (Slice99_get self rhs) self.item_size
    some (memcpy m2 (Slice99_get self rhs) backup self.item_size)
  else none

/-- One iteration of the `Slice99_swap_with_slice` loop: item `i` of `self`
to `backup`, item `i` of `other` to item `i` of `self`, `backup` to item `i`
of `other`. -/
def swapStep (self other : Slice99) (backup : Int) (i : Int) (m : Mem) : Mem :=
  let m1 := memcpy m backup (Slice99_get self i) self.item_size
  let m2 := memcpy m1 (Slice99_get self i) (Slice99_get other i) self.item_size
  memcpy m2 (Slice99_get other i) backup self.item_size

/-- `Slice99_swap_with_slice`: asserts `self.len == other.len` and
`self.item_size == other.item_size`, then swaps item-wise via `backup` for
`i = 0 .. self.len - 1`. -/
def Slice99_swap_with_slice (self other : Slice99) (backup : Int) (m : Mem) : Option Mem :=
  if self.len = other.len then
    if self.item_size = other.item_size then
      some ((List.range self.len).foldl (fun mm i => swapStep self other backup (i : Int) mm) m)
    else none
  else none

/-- The loop of `Slice99_reverse`:
`for (i = <current>; i < (ptrdiff_t)self.len / 2; i++) Slice99_swap(self, i, (ptrdiff_t)self.len - i - 1, backup);`. -/
def revLoop (self : Slice99) (backup : Int) (i : Nat) (m : Mem) : Option Mem :=
  if _h : i < self.len / 2 then
    match Slice99_swap self (i : Int) ((self.len : Int) - (i : Int) - 1) backup m with
    | none => none
    | some m2 => revLoop self backup (i + 1) m2
  else some m
termination_by self.len / 2 - i

/-- `Slice99_reverse`: asserts `backup` non-null, then runs the swap loop
from `i = 0`. -/
def Slice99_reverse (self : Slice99) (backup : Int) (m : Mem) : Option Mem :=
  if backup ≠ 0 then revLoop self backup 0 m else none

/-- `Slice99_split_at`: asserts `i <= self.len` (the out-pointers `lhs` and
`rhs`, modelled as the returned pair, are never null), then
`*lhs = Slice99_sub(self, 0, (ptrdiff_t)i); *rhs = Slice99_sub(self, (ptrdiff_t)i, (ptrdiff_t)self.len);`. -/
def Slice99_split_at (self : Slice99) (i : Nat) : Option (Slice99 × Slice99) :=
  if i ≤ self.len then
    match Slice99_sub self 0 (i : Int), Slice99_sub self (i : Int) (self.len : Int) with
    | some l, some r => some (l, r)
    | _, _ => none
  else none

/-- One byte store. -/
def memset1 (m : Mem) (a : Int) (v : Nat) : Mem :=
  fun x => if x = a then v else m x

/-- `Slice99_c_str`: asserts `out` non-null, copies `Slice99_size(self)` bytes
of `self` to `out`, stores `'\0'` at `out[Slice99_size(self)]`, and returns
`out` together with the updated memory. -/
def Slice99_c_str (self : Slice99) (out : Int) (m : Mem) : Option (Int × Mem) :=
  if out ≠ 0 then
    let m1 := memcpy m out self.ptr (Slice99_size self)
    some (out, memset1 m1 (out + (Slice99_size self : Int)) 0)
  else none

/-- A typed slice as produced by `SLICE99_DEF_TYPED(name, T)`:
`typedef struct { T *ptr; size_t len; } name;`.  The element type enters only
through `sizeof(T)`, passed separately where needed. -/
structure TypedSlice99 where
  ptr : Int
  len : Nat
deriving DecidableEq, Repr

/-- `SLICE99_TO_TYPED(self)`: `{ .ptr = (self).ptr, .len = (self).len }`. -/
def SLICE99_TO_TYPED (self : Slice99) : TypedSlice99 :=
  ⟨self.ptr, self.len⟩

/-- `SLICE99_TO_UNTYPED(self)`:
`Slice99_new((self).ptr, sizeof(*(self).ptr), (self).len)`; `sizeofT` stands
for `sizeof(T)`. -/
def SLICE99_TO_UNTYPED (sizeofT : Nat) (self : TypedSlice99) : Option Slice99 :=
  Slice99_new self.ptr sizeofT self.len

/-- `str` addresses a null-terminated string of length `n` in memory `m`:
the `n` bytes at `str` are nonzero and the byte at `str + n` is zero.  This
is the specification of `SLICE99_STRLEN`. -/
def strlenSpec (m : Mem) (str : Int) (n : Nat) : Prop :=
  (∀ t < n, m (str + (t : Int)) ≠ 0) ∧ m (str + (n : Int)) = 0

/-- The byte address `a` lies in the region of `n` bytes starting at `base`. -/
def inRange (a base : Int) (n : Nat) : Prop :=
  base ≤ a ∧ a < base + (n : Int)

instance (a base : Int) (n : Nat) : Decidable (inRange a base n) := by
  unfold inRange; infer_instance

/-! ## Helper lemmas -/

theorem Slice99_new_eq_some {p : Int} {sz len : Nat} (hp : p ≠ 0) (hsz : 0 < sz) :
    Slice99_new p sz len = some ⟨p, sz, len⟩ := by
  simp [Slice99_new, hp, hsz]

theorem Slice99_new_some_inv {p : Int} {sz len : Nat} {s : Slice99}
    (h : Slice99_new p sz len = some s) :
    p ≠ 0 ∧ 0 < sz ∧ s = ⟨p, sz, len⟩ := by
  unfold Slice99_new at h
  split at h
  · split at h
    · exact ⟨by assumption, by assumption, by simpa using h.symm⟩
    · exact absurd h (by simp)
  · exact absurd h (by simp)

theorem Slice99_from_ptrdiff_eq {start end_ : Int} {sz : Nat}
    (hs : start ≠ 0) (he : end_ ≠ 0) (hd : 0 ≤ end_ - start)
    (hm : (end_ - start).toNat % sz = 0) (hsz : 0 < sz) :
    Slice99_from_ptrdiff start end_ sz = some ⟨start, sz, ((end_ - start) / (sz : Int)).toNat⟩ := by
  simp only [Slice99_from_ptrdiff, hs, he, hd, hm, if_true, ite_true, ne_eq,
    not_false_eq_true, if_pos]
  exact Slice99_new_eq_some hs hsz

theorem Slice99_from_ptrdiff_some_inv {start end_ : Int} {sz : Nat} {s : Slice99}
    (h : Slice99_from_ptrdiff start end_ sz = some s) :
    s.ptr ≠ 0 ∧ 0 < s.item_size := by
  unfold Slice99_from_ptrdiff at h
  split at h
  · split at h
    · split at h
      · split at h
        · obtain ⟨h1, h2, h3⟩ := Slice99_new_some_inv h
          subst h3
          exact ⟨h1, h2⟩
        · exact absurd h (by simp)
      · exact absurd h (by simp)
    · exact absurd h (by simp)
  · exact absurd h (by simp)

theorem Slice99_get_sub_get {v : Slice99} {s e : Int} :
    Slice99_get v e - Slice99_get v s = (e - s) * (v.item_size : Int) := by
  simp only [Slice99_get]; ring

/-- `Slice99_sub` on a well-formed slice with `s ≤ e` and non-null computed
bounds: the result slice, spelled out. -/
theorem Slice99_sub_eq {v : Slice99} {s e : Int}
    (hsz : 0 < v.item_size) (hse : s ≤ e)
    (hns : Slice99_get v s ≠ 0) (hne : Slice99_get v e ≠ 0) :
    Slice99_sub v s e = some ⟨Slice99_get v s, v.item_size, (e - s).toNat⟩ := by
  have hdiff : Slice99_get v e - Slice99_get v s = (e - s) * (v.item_size : Int) :=
    Slice99_get_sub_get
  have hzero : (v.item_size : Int) ≠ 0 := by exact_mod_cast hsz.ne'
  have hd : 0 ≤ Slice99_get v e - Slice99_get v s := by
    rw [hdiff]
    exact mul_nonneg (by omega) (by positivity)
  have hm : (Slice99_get v e - Slice99_get v s).toNat % v.item_size = 0 := by
    rw [hdiff]
    have : ((e - s) * (v.item_size : Int)).toNat = (e - s).toNat * v.item_size := by
      obtain ⟨n, hn⟩ := Int.eq_ofNat_of_zero_le (by omega : (0 : Int) ≤ e - s)
      rw [hn]
      have hcast : ((n : Int) * (v.item_size : Int)) = ((n * v.item_size : Nat) : Int) := by
        push_cast; ring
      rw [hcast, Int.toNat_natCast]
      simp
    rw [this]
    simp [Nat.mul_mod_left]
  have hq : (Slice99_get v e - Slice99_get v s) / (v.item_size : Int) = e - s := by
    rw [hdiff]
    exact Int.mul_ediv_cancel _ hzero
  unfold Slice99_sub
  rw [if_pos hse, Slice99_from_ptrdiff_eq hns hne hd hm hsz, hq]

/-! ## C1: sub-slice address/length arithmetic -/

/-- C1: for every slice `v` with `item_size > 0` and all signed indices
`s ≤ e` (negative indices and `e > v.len` included), provided the two
computed element addresses are non-null (so the `Slice99_from_ptrdiff`
asserts pass), `Slice99_sub v s e` returns the slice whose `ptr` is
`Slice99_get v s`, whose `len` is `e - s`, and whose `item_size` is
`v.item_size`. -/
theorem C1_sub_address_length (v : Slice99) (s e : Int)
    (hsz : 0 < v.item_size) (hse : s ≤ e)
    (hns : Slice99_get v s ≠ 0) (hne : Slice99_get v e ≠ 0) :
    Slice99_sub v s e = some ⟨Slice99_get v s, v.item_size, (e - s).toNat⟩ :=
  Slice99_sub_eq hsz hse hns hne

/-- Witness for C1 at `v = ⟨10, 4, 5⟩`, `s = -2`, `e = 7` (negative start,
end past `len`): the result starts at `10 + (-2) * 4 = 2` and has length 9. -/
theorem C1_witness : Slice99_sub ⟨10, 4, 5⟩ (-2) 7 = some ⟨2, 4, 9⟩ := by
  have h := C1_sub_address_length ⟨10, 4, 5⟩ (-2) 7 (by decide) (by decide)
    (by decide) (by decide)
  simpa [Slice99_get] using h

/-! ## C2: split_at -/

/-- C2: for `i ≤ v.len` (and non-null computed element addresses, so the
`Slice99_from_ptrdiff` asserts pass), `Slice99_split_at v i` returns
`lhs = ⟨v.ptr, v.item_size, i⟩` and
`rhs = ⟨Slice99_get v i, v.item_size, v.len - i⟩`; both alias the original
memory (the operation takes no memory argument and copies no bytes).  For
`i > v.len` the checked precondition fails. -/
theorem C2_split_at (v : Slice99) (i : Nat)
    (hsz : 0 < v.item_size) (hp : v.ptr ≠ 0)
    (hni : Slice99_get v (i : Int) ≠ 0) (hnl : Slice99_get v (v.len : Int) ≠ 0) :
    (i ≤ v.len →
      Slice99_split_at v i =
        some (⟨v.ptr, v.item_size, i⟩, ⟨Slice99_get v (i : Int), v.item_size, v.len - i⟩)) ∧
    (v.len < i → Slice99_split_at v i = none) := by
  constructor
  · intro hi
    have h0 : Slice99_get v 0 = v.ptr := by simp [Slice99_get]
    have hsub1 : Slice99_sub v 0 (i : Int) = some ⟨v.ptr, v.item_size, i⟩ := by
      have := Slice99_sub_eq (v := v) (s := 0) (e := (i : Int)) hsz (by positivity)
        (by rw [h0]; exact hp) hni
      simpa [h0] using this
    have hsub2 : Slice99_sub v (i : Int) (v.len : Int) =
        some ⟨Slice99_get v (i : Int), v.item_size, v.len - i⟩ := by
      have := Slice99_sub_eq (v := v) (s := (i : Int)) (e := (v.len : Int)) hsz
        (by exact_mod_cast hi) hni hnl
      have htn : ((v.len : Int) - (i : Int)).toNat = v.len - i := by omega
      rwa [htn] at this
    unfold Slice99_split_at
    rw [if_pos hi, hsub1, hsub2]
  · intro hi
    unfold Slice99_split_at
    rw [if_neg (by omega)]

/-- Witness for C2 at `v = ⟨10, 4, 5⟩`: splitting at `i = 2` yields
`⟨10, 4, 2⟩` and `⟨18, 4, 3⟩`, and splitting at `i = 6 > 5` fails the
checked precondition. -/
theorem C2_witness :
    Slice99_split_at ⟨10, 4, 5⟩ 2 = some (⟨10, 4, 2⟩, ⟨18, 4, 3⟩) ∧
    Slice99_split_at ⟨10, 4, 5⟩ 6 = none := by
  constructor
  · have h := (C2_split_at ⟨10, 4, 5⟩ 2 (by decide) (by decide) (by decide) (by decide)).1
      (by decide)
    simpa [Slice99_get] using h
  · exact (C2_split_at ⟨10, 4, 5⟩ 6 (by decide) (by decide) (by decide) (by decide)).2
      (by decide)

/-! ## Helper: invariants of sub results -/

theorem Slice99_sub_some_inv {v : Slice99} {a b : Int} {s : Slice99}
    (h : Slice99_sub v a b = some s) : s.ptr ≠ 0 ∧ 0 < s.item_size := by
  unfold Slice99_sub at h
  split at h
  · exact Slice99_from_ptrdiff_some_inv h
  · exact absurd h (by simp)

/-! ## C6: checked preconditions fail fast -/

/-- C6: every checked-precondition violation makes the operation fail via the
assertion facility (modelled as returning `none`, carrying no partial
result): `Slice99_new` with a null `ptr` or zero `item_size`,
`Slice99_from_ptrdiff` with a null `start`/`end`, a reversed range, or a
misaligned range, `Slice99_sub` with `start_idx > end_idx`, `Slice99_eq` /
`Slice99_starts_with` / `Slice99_ends_with` with mismatched `item_size`,
`Slice99_swap_with_slice` with mismatched `len` or `item_size`, and
`Slice99_split_at` with `i > self.len`. -/
theorem C6_fail_fast :
    (∀ sz len, Slice99_new 0 sz len = none) ∧
    (∀ p len, Slice99_new p 0 len = none) ∧
    (∀ e sz, Slice99_from_ptrdiff 0 e sz = none) ∧
    (∀ s sz, Slice99_from_ptrdiff s 0 sz = none) ∧
    (∀ s e sz, e - s < 0 → Slice99_from_ptrdiff s e sz = none) ∧
    (∀ s e sz, 0 ≤ e - s → (e - s).toNat % sz ≠ 0 → Slice99_from_ptrdiff s e sz = none) ∧
    (∀ v a b, b < a → Slice99_sub v a b = none) ∧
    (∀ l r cmp, l.item_size ≠ r.item_size → Slice99_eq l r cmp = none) ∧
    (∀ v p cmp, v.item_size ≠ p.item_size → Slice99_starts_with v p cmp = none) ∧
    (∀ v p cmp, v.item_size ≠ p.item_size → Slice99_ends_with v p cmp = none) ∧
    (∀ a b bk m, a.len ≠ b.len → Slice99_swap_with_slice a b bk m = none) ∧
    (∀ a b bk m, a.item_size ≠ b.item_size → Slice99_swap_with_slice a b bk m = none) ∧
    (∀ v i, v.len < i → Slice99_split_at v i = none) := by
  refine ⟨?_, ?_, ?_, ?_, ?_, ?_, ?_, ?_, ?_, ?_, ?_, ?_, ?_⟩
  · intro sz len; simp [Slice99_new]
  · intro p len; simp [Slice99_new]
  · intro e sz; simp [Slice99_from_ptrdiff]
  · intro s sz
    unfold Slice99_from_ptrdiff
    split
    · simp
    · rfl
  · intro s e sz h
    unfold Slice99_from_ptrdiff
    split
    · split
      · rw [if_neg (by omega)]
      · rfl
    · rfl
  · intro s e sz h0 hm
    by_cases hs : s = 0
    · simp [Slice99_from_ptrdiff, hs]
    · by_cases he2 : e = 0
      · simp [Slice99_from_ptrdiff, hs, he2]
      · simp [Slice99_from_ptrdiff, hs, he2, h0, hm]
  · intro v a b h
    unfold Slice99_sub
    rw [if_neg (by omega)]
  · intro l r cmp h; simp [Slice99_eq, h]
  · intro v p cmp h; simp [Slice99_starts_with, h]
  · intro v p cmp h; simp [Slice99_ends_with, h]
  · intro a b bk m h; simp [Slice99_swap_with_slice, h]
  · intro a b bk m h
    by_cases hl : a.len = b.len
    · simp [Slice99_swap_with_slice, hl, h]
    · simp [Slice99_swap_with_slice, hl]
  · intro v i h
    unfold Slice99_split_at
    rw [if_neg (by omega)]

/-- Witness for C6: one concrete violating input per listed operation. -/
theorem C6_witness :
    Slice99_new 0 4 2 = none ∧ Slice99_new 7 0 2 = none ∧
    Slice99_from_ptrdiff 0 8 4 = none ∧ Slice99_from_ptrdiff 8 0 4 = none ∧
    Slice99_from_ptrdiff 8 4 4 = none ∧ Slice99_from_ptrdiff 8 10 4 = none ∧
    Slice99_sub ⟨10, 4, 5⟩ 3 1 = none ∧
    Slice99_eq ⟨10, 4, 5⟩ ⟨10, 2, 5⟩ (fun _ _ => 0) = none ∧
    Slice99_starts_with ⟨10, 4, 5⟩ ⟨10, 2, 1⟩ (fun _ _ => 0) = none ∧
    Slice99_ends_with ⟨10, 4, 5⟩ ⟨10, 2, 1⟩ (fun _ _ => 0) = none ∧
    Slice99_swap_with_slice ⟨10, 4, 5⟩ ⟨100, 4, 3⟩ 200 (fun _ => 0) = none ∧
    Slice99_swap_with_slice ⟨10, 4, 5⟩ ⟨100, 2, 5⟩ 200 (fun _ => 0) = none ∧
    Slice99_split_at ⟨10, 4, 5⟩ 6 = none := by
  obtain ⟨h1, h2, h3, h4, h5, h6, h7, h8, h9, h10, h11, h12, h13⟩ := C6_fail_fast
  exact ⟨h1 4 2, h2 7 2, h3 8 4, h4 8 4, h5 8 4 4 (by decide), h6 8 10 4 (by decide) (by decide),
    h7 ⟨10, 4, 5⟩ 3 1 (by decide), h8 ⟨10, 4, 5⟩ ⟨10, 2, 5⟩ (fun _ _ => 0) (by decide),
    h9 ⟨10, 4, 5⟩ ⟨10, 2, 1⟩ (fun _ _ => 0) (by decide),
    h10 ⟨10, 4, 5⟩ ⟨10, 2, 1⟩ (fun _ _ => 0) (by decide),
    h11 ⟨10, 4, 5⟩ ⟨100, 4, 3⟩ 200 (fun _ => 0) (by decide),
    h12 ⟨10, 4, 5⟩ ⟨100, 2, 5⟩ 200 (fun _ => 0) (by decide),
    h13 ⟨10, 4, 5⟩ 6 (by decide)⟩

/-! ## C7: typed/untyped round trip -/

/-- C7: the typed/untyped conversions are a lossless round trip.  For an
untyped slice `v` with non-null `ptr` and `item_size = sizeof(T)`, converting
to typed and back yields `v` itself; for a typed slice `t` with non-null
`ptr`, converting to untyped and back yields `t`, with the element size of
the intermediate untyped slice reconstructed as `sizeof(T)`. -/
theorem C7_typed_untyped_roundtrip (sizeofT : Nat) (v : Slice99) (t : TypedSlice99)
    (hszT : 0 < sizeofT) :
    (v.ptr ≠ 0 → v.item_size = sizeofT →
      SLICE99_TO_UNTYPED sizeofT (SLICE99_TO_TYPED v) = some v) ∧
    (t.ptr ≠ 0 →
      (SLICE99_TO_UNTYPED sizeofT t).map SLICE99_TO_TYPED = some t ∧
      (SLICE99_TO_UNTYPED sizeofT t).map Slice99.item_size = some sizeofT) := by
  constructor
  · intro hp hsz
    obtain ⟨p, sz, l⟩ := v
    simp only at hp hsz
    subst hsz
    unfold SLICE99_TO_UNTYPED SLICE99_TO_TYPED
    exact Slice99_new_eq_some hp hszT
  · intro hp
    obtain ⟨p, l⟩ := t
    simp only at hp
    unfold SLICE99_TO_UNTYPED
    rw [Slice99_new_eq_some hp hszT]
    constructor <;> rfl

/-- Witness for C7 at `sizeof(T) = 4`, `v = ⟨10, 4, 5⟩`, `t = ⟨10, 5⟩`. -/
theorem C7_witness :
    SLICE99_TO_UNTYPED 4 (SLICE99_TO_TYPED ⟨10, 4, 5⟩) = some ⟨10, 4, 5⟩ ∧
    (SLICE99_TO_UNTYPED 4 ⟨10, 5⟩).map SLICE99_TO_TYPED = some ⟨10, 5⟩ ∧
    (SLICE99_TO_UNTYPED 4 ⟨10, 5⟩).map Slice99.item_size = some 4 := by
  have h := C7_typed_untyped_roundtrip 4 ⟨10, 4, 5⟩ ⟨10, 5⟩ (by decide)
  exact ⟨h.1 (by decide) rfl, h.2 (by decide)⟩

/-! ## C8: constructors preserve the data-model invariants -/

/-- C8: every operation constructing an untyped slice preserves the
invariants: whenever it returns a slice (rather than failing an assert), the
result has non-null `ptr` and `item_size > 0`; `len = 0` is an always-valid
state, and in particular `Slice99_empty` returns a zero-length slice with a
non-null `ptr` (the address of the static `""` literal). -/
theorem C8_invariants_preserved :
    (∀ p sz l s, Slice99_new p sz l = some s → s.ptr ≠ 0 ∧ 0 < s.item_size) ∧
    (∀ f str s, Slice99_from_str f str = some s → s.ptr ≠ 0 ∧ 0 < s.item_size) ∧
    (∀ a b sz s, Slice99_from_ptrdiff a b sz = some s → s.ptr ≠ 0 ∧ 0 < s.item_size) ∧
    (∀ sz s, Slice99_empty sz = some s → s.ptr ≠ 0 ∧ 0 < s.item_size ∧ s.len = 0) ∧
    (∀ v n s, Slice99_update_len v n = some s → s.ptr ≠ 0 ∧ 0 < s.item_size) ∧
    (∀ v a b s, Slice99_sub v a b = some s → s.ptr ≠ 0 ∧ 0 < s.item_size) ∧
    (∀ v o s, Slice99_advance v o = some s → s.ptr ≠ 0 ∧ 0 < s.item_size) ∧
    (∀ v i l r, Slice99_split_at v i = some (l, r) →
      (l.ptr ≠ 0 ∧ 0 < l.item_size) ∧ (r.ptr ≠ 0 ∧ 0 < r.item_size)) ∧
    (∀ sz, 0 < sz → Slice99_empty sz = some ⟨emptyLitAddr, sz, 0⟩ ∧ emptyLitAddr ≠ 0) := by
  refine ⟨?_, ?_, ?_, ?_, ?_, ?_, ?_, ?_, ?_⟩
  · intro p sz l s h
    obtain ⟨h1, h2, h3⟩ := Slice99_new_some_inv h
    subst h3; exact ⟨h1, h2⟩
  · intro f str s h
    unfold Slice99_from_str at h
    split at h
    · obtain ⟨h1, h2, h3⟩ := Slice99_new_some_inv h
      subst h3; exact ⟨h1, h2⟩
    · exact absurd h (by simp)
  · intro a b sz s h
    exact Slice99_from_ptrdiff_some_inv h
  · intro sz s h
    unfold Slice99_empty at h
    split at h
    · obtain ⟨h1, h2, h3⟩ := Slice99_new_some_inv h
      subst h3; exact ⟨h1, h2, rfl⟩
    · exact absurd h (by simp)
  · intro v n s h
    unfold Slice99_update_len at h
    obtain ⟨h1, h2, h3⟩ := Slice99_new_some_inv h
    subst h3; exact ⟨h1, h2⟩
  · intro v a b s h
    exact Slice99_sub_some_inv h
  · intro v o s h
    exact Slice99_sub_some_inv h
  · intro v i l r h
    unfold Slice99_split_at at h
    split at h
    · split at h
      · rename_i hl hr
        injection h with h2
        cases h2
        exact ⟨Slice99_sub_some_inv hl, Slice99_sub_some_inv hr⟩
      · exact absurd h (by simp)
    · exact absurd h (by simp)
  · intro sz hsz
    unfold Slice99_empty
    rw [if_pos hsz, Slice99_new_eq_some (by decide) hsz]
    exact ⟨rfl, by decide⟩

/-- Witness for C8: concrete instances of the invariant-preservation facts. -/
theorem C8_witness :
    ((⟨10, 4, 5⟩ : Slice99).ptr ≠ 0 ∧ 0 < (⟨10, 4, 5⟩ : Slice99).item_size) ∧
    Slice99_empty 4 = some ⟨emptyLitAddr, 4, 0⟩ ∧ emptyLitAddr ≠ 0 := by
  obtain ⟨h1, _, _, _, _, _, _, _, h9⟩ := C8_invariants_preserved
  refine ⟨h1 10 4 5 ⟨10, 4, 5⟩ ?_, (h9 4 (by decide)).1, (h9 4 (by decide)).2⟩
  decide

/-! ## C9: update_len -/

/-- C9 counterexample: the claim says `Slice99_update_len` performs no check
on the unchanged `ptr` and `item_size` fields and returns the updated slice
for every `self`; but the implementation delegates to `Slice99_new`, whose
assert on the (unchanged) null `ptr` fires here instead of returning
`some ⟨0, 1, 3⟩`. -/
theorem C9_counterexample : Slice99_update_len ⟨0, 1, 5⟩ 3 = none := by decide

/-- C9 amended: for every slice `self` satisfying the data-model invariants
(non-null `ptr`, positive `item_size`) and every `new_len`,
`Slice99_update_len` is a pure functional update: it returns the slice with
`len = new_len` and `ptr`, `item_size` unchanged.  No validation is applied
to the new `len` field; the unchanged `ptr` and `item_size` fields are
re-validated through `Slice99_new`. -/
theorem C9_update_len_amended (self : Slice99) (new_len : Nat)
    (hp : self.ptr ≠ 0) (hsz : 0 < self.item_size) :
    Slice99_update_len self new_len = some ⟨self.ptr, self.item_size, new_len⟩ := by
  unfold Slice99_update_len
  exact Slice99_new_eq_some hp hsz

/-- Witness for C9 at `self = ⟨10, 4, 5⟩`, `new_len = 7`. -/
theorem C9_witness : Slice99_update_len ⟨10, 4, 5⟩ 7 = some ⟨10, 4, 7⟩ :=
  C9_update_len_amended ⟨10, 4, 5⟩ 7 (by decide) (by decide)

/-! ## C5: Slice99_eq -/

/-- The comparator reports the `i`-th item pair of `lhs` and `rhs` equal. -/
def cmpOk (lhs rhs : Slice99) (cmp : Int → Int → Int) (i : Nat) : Bool :=
  cmp (Slice99_get lhs (i : Int)) (Slice99_get rhs (i : Int)) == 0

theorem eqGo_snd (lhs rhs : Slice99) (cmp : Int → Int → Int) (L : List Nat) :
    (eqGo lhs rhs cmp L).2 = L.all (cmpOk lhs rhs cmp) := by
  induction L with
  | nil => rfl
  | cons i rest ih =>
    by_cases hbad : cmp (Slice99_get lhs (i : Int)) (Slice99_get rhs (i : Int)) ≠ 0
    · have hb : cmpOk lhs rhs cmp i = false := by simpa [cmpOk, beq_iff_eq] using hbad
      simp [eqGo, hbad, List.all_cons, hb]
    · push_neg at hbad
      have hb : cmpOk lhs rhs cmp i = true := by simpa [cmpOk, beq_iff_eq] using hbad
      simp [eqGo, hbad, List.all_cons, ih, hb]

theorem eqGo_fst (lhs rhs : Slice99) (cmp : Int → Int → Int) (L : List Nat) :
    (eqGo lhs rhs cmp L).1 =
      L.takeWhile (cmpOk lhs rhs cmp)
        ++ (L.dropWhile (cmpOk lhs rhs cmp)).take 1 := by
  induction L with
  | nil => rfl
  | cons i rest ih =>
    by_cases hbad : cmp (Slice99_get lhs (i : Int)) (Slice99_get rhs (i : Int)) ≠ 0
    · have hb : cmpOk lhs rhs cmp i = false := by simpa [cmpOk, beq_iff_eq] using hbad
      simp [eqGo, hbad, List.takeWhile_cons, List.dropWhile_cons, hb]
    · push_neg at hbad
      have hb : cmpOk lhs rhs cmp i = true := by simpa [cmpOk, beq_iff_eq] using hbad
      simp [eqGo, hbad, List.takeWhile_cons, List.dropWhile_cons, hb, ih]

/-- C5: `Slice99_eq` fails its checked precondition when the item sizes
differ; with equal item sizes it returns `false` for length-mismatched
slices without invoking the comparator at all (`Slice99_eqCalls` is empty),
and for equal lengths it returns `true` iff the comparator returns `0` on
the item pair at every index, invoking the comparator pairwise in index
order and stopping right after the first index whose comparison is
nonzero. -/
theorem C5_eq_comparator (lhs rhs : Slice99) (cmp : Int → Int → Int) :
    (lhs.item_size ≠ rhs.item_size → Slice99_eq lhs rhs cmp = none) ∧
    (lhs.item_size = rhs.item_size → lhs.len ≠ rhs.len →
      Slice99_eq lhs rhs cmp = some false ∧ Slice99_eqCalls lhs rhs cmp = []) ∧
    (lhs.item_size = rhs.item_size → lhs.len = rhs.len →
      ∃ b, Slice99_eq lhs rhs cmp = some b ∧
        (b = true ↔
          ∀ i : Nat, i < lhs.len →
            cmp (Slice99_get lhs (i : Int)) (Slice99_get rhs (i : Int)) = 0) ∧
        Slice99_eqCalls lhs rhs cmp =
          (List.range lhs.len).takeWhile (cmpOk lhs rhs cmp)
            ++ ((List.range lhs.len).dropWhile (cmpOk lhs rhs cmp)).take 1) := by
  refine ⟨?_, ?_, ?_⟩
  · intro h; simp [Slice99_eq, h]
  · intro hsz hlen
    constructor
    · simp [Slice99_eq, hsz, hlen]
    · simp [Slice99_eqCalls, hlen]
  · intro hsz hlen
    refine ⟨(eqGo lhs rhs cmp (List.range lhs.len)).2, ?_, ?_, ?_⟩
    · simp [Slice99_eq, hsz, hlen]
    · rw [eqGo_snd]
      simp [List.all_eq_true, List.mem_range, cmpOk, beq_iff_eq]
    · unfold Slice99_eqCalls
      rw [if_neg (by omega), eqGo_fst]

/-- Witness for C5: the three branches at concrete inputs.  With
`lhs = ⟨10, 1, 3⟩`, `rhs = ⟨20, 1, 3⟩` and `cmp p q = p - q - 10`, every
comparison yields `-20 ≠ 0`, so the result is `false` and the comparator is
invoked only at index `0`. -/
theorem C5_witness :
    Slice99_eq ⟨10, 1, 3⟩ ⟨20, 2, 3⟩ (fun p q => p - q - 10) = none ∧
    (Slice99_eq ⟨10, 1, 3⟩ ⟨20, 1, 2⟩ (fun p q => p - q - 10) = some false ∧
      Slice99_eqCalls ⟨10, 1, 3⟩ ⟨20, 1, 2⟩ (fun p q => p - q - 10) = []) ∧
    (∃ b, Slice99_eq ⟨10, 1, 3⟩ ⟨20, 1, 3⟩ (fun p q => p - q - 10) = some b ∧
      (b = true ↔
        ∀ i : Nat, i < (⟨10, 1, 3⟩ : Slice99).len →
          (fun p q => p - q - 10) (Slice99_get ⟨10, 1, 3⟩ (i : Int))
            (Slice99_get ⟨20, 1, 3⟩ (i : Int)) = 0) ∧
      Slice99_eqCalls ⟨10, 1, 3⟩ ⟨20, 1, 3⟩ (fun p q => p - q - 10) =
        (List.range (⟨10, 1, 3⟩ : Slice99).len).takeWhile
            (cmpOk ⟨10, 1, 3⟩ ⟨20, 1, 3⟩ (fun p q => p - q - 10))
          ++ ((List.range (⟨10, 1, 3⟩ : Slice99).len).dropWhile
                (cmpOk ⟨10, 1, 3⟩ ⟨20, 1, 3⟩ (fun p q => p - q - 10))).take 1) :=
  ⟨(C5_eq_comparator ⟨10, 1, 3⟩ ⟨20, 2, 3⟩ (fun p q => p - q - 10)).1 (by decide),
   (C5_eq_comparator ⟨10, 1, 3⟩ ⟨20, 1, 2⟩ (fun p q => p - q - 10)).2.1 (by decide) (by decide),
   (C5_eq_comparator ⟨10, 1, 3⟩ ⟨20, 1, 3⟩ (fun p q => p - q - 10)).2.2 (by decide) rfl⟩

/-! ## C4: primitive starts_with / ends_with -/

theorem memeq_iff (m : Mem) (p q : Int) (n : Nat) :
    memeq m p q n = true ↔ ∀ t < n, m (p + (t : Int)) = m (q + (t : Int)) := by
  induction n with
  | zero => simp [memeq]
  | succ k ih =>
    rw [memeq, Bool.and_eq_true, ih, beq_iff_eq]
    constructor
    · rintro ⟨h1, h2⟩ t ht
      rcases Nat.lt_succ_iff_lt_or_eq.mp ht with h | h
      · exact h1 t h
      · subst h; exact h2
    · intro h
      exact ⟨fun t ht => h t (by omega), h k (by omega)⟩

/-- C4 counterexample: the claim asserts the byte-size/leading-bytes
characterisation "for every pair of slices, including pairs whose
`item_size` fields differ".  Take `self = ⟨10, 1, 4⟩` and
`pre = ⟨10, 2, 1⟩` in the all-zero memory: `self`'s byte size `4` is at
least `pre`'s byte size `2` and the leading `2` bytes of `self` are
byte-for-byte equal to `pre` (both slices start at address `10`), so the
claim predicts `true`; yet `Slice99_primitive_starts_with` compares
`Slice99_sub(self, 0, pre.len)` — `pre.len` items of *`self`'s* item size,
i.e. only `1` byte — whose byte size differs from `pre`'s, so
`Slice99_primitive_eq` and hence the whole call returns `false`. -/
theorem C4_counterexample :
    Slice99_primitive_starts_with ⟨10, 1, 4⟩ ⟨10, 2, 1⟩ (fun _ => 0) = some false ∧
    Slice99_size ⟨10, 2, 1⟩ ≤ Slice99_size ⟨10, 1, 4⟩ ∧
    memeq (fun _ => 0) 10 10 (Slice99_size ⟨10, 2, 1⟩) = true := by
  refine ⟨?_, by decide, by decide⟩
  decide

/-- C4 amended: restricted to pairs with equal `item_size` fields (the
documented precondition of the comparator-based variants, and the only case
in which the claim's characterisation matches the code),
`Slice99_primitive_starts_with self pre m` returns `true` iff `self`'s total
byte size is at least `pre`'s and the leading `Slice99_size pre` bytes of
`self` equal `pre`'s bytes, and `Slice99_primitive_ends_with self post m`
returns `true` iff `self`'s total byte size is at least `post`'s and the
trailing `Slice99_size post` bytes of `self` equal `post`'s bytes; an empty
prefix or postfix matches every slice.  (The hypotheses on `Slice99_get`
keep the computed sub-slice bounds non-null, so the `Slice99_from_ptrdiff`
asserts pass.) -/
theorem C4_affix_amended (self pre post : Slice99) (m : Mem)
    (hsz1 : pre.item_size = self.item_size) (hsz2 : post.item_size = self.item_size)
    (hs : 0 < self.item_size) (hp : self.ptr ≠ 0)
    (h1 : Slice99_get self (pre.len : Int) ≠ 0)
    (h2 : Slice99_get self ((self.len : Int) - (post.len : Int)) ≠ 0)
    (h3 : Slice99_get self (self.len : Int) ≠ 0) :
    (∃ b, Slice99_primitive_starts_with self pre m = some b ∧
      (b = true ↔ Slice99_size pre ≤ Slice99_size self ∧
        ∀ t < Slice99_size pre, m (self.ptr + (t : Int)) = m (pre.ptr + (t : Int))) ∧
      (pre.len = 0 → b = true)) ∧
    (∃ b, Slice99_primitive_ends_with self post m = some b ∧
      (b = true ↔ Slice99_size post ≤ Slice99_size self ∧
        ∀ t < Slice99_size post,
          m (self.ptr + ((self.len : Int) - (post.len : Int)) * (self.item_size : Int) + (t : Int))
            = m (post.ptr + (t : Int))) ∧
      (post.len = 0 → b = true)) := by
  constructor
  · by_cases hlt : Slice99_size self < Slice99_size pre
    · refine ⟨false, ?_, ?_, ?_⟩
      · simp [Slice99_primitive_starts_with, hlt]
      · simp only [Bool.false_eq_true, false_iff]
        intro hcon
        omega
      · intro h0
        exfalso
        have : Slice99_size pre = 0 := by simp [Slice99_size, h0]
        omega
    · have h0get : Slice99_get self 0 = self.ptr := by simp [Slice99_get]
      have hsub : Slice99_sub self 0 (pre.len : Int) =
          some ⟨self.ptr, self.item_size, pre.len⟩ := by
        have := Slice99_sub_eq (v := self) (s := 0) (e := (pre.len : Int)) hs
          (by positivity) (by rw [h0get]; exact hp) h1
        simpa [h0get] using this
      have hszeq : Slice99_size ⟨self.ptr, self.item_size, pre.len⟩ = Slice99_size pre := by
        simp [Slice99_size, hsz1]
      refine ⟨memeq m self.ptr pre.ptr (Slice99_size pre), ?_, ?_, ?_⟩
      · rw [Slice99_primitive_starts_with, if_neg hlt, hsub, Option.map_some']
        rw [Slice99_primitive_eq, if_neg (by rw [hszeq]; simp), hszeq]
      · rw [memeq_iff]
        constructor
        · intro h
          exact ⟨by omega, h⟩
        · intro h
          exact h.2
      · intro h0
        have : Slice99_size pre = 0 := by simp [Slice99_size, h0]
        rw [this]
        rfl
  · by_cases hlt : Slice99_size self < Slice99_size post
    · refine ⟨false, ?_, ?_, ?_⟩
      · simp [Slice99_primitive_ends_with, hlt]
      · simp only [Bool.false_eq_true, false_iff]
        intro hcon
        omega
      · intro h0
        exfalso
        have : Slice99_size post = 0 := by simp [Slice99_size, h0]
        omega
    · have hple : post.len ≤ self.len := by
        unfold Slice99_size at hlt
        rw [hsz2] at hlt
        by_contra hcon
        exact hlt (by push_neg at hcon; exact (Nat.mul_lt_mul_left hs).mpr hcon)
      have hstart : Slice99_get self ((self.len : Int) - (post.len : Int)) =
          self.ptr + ((self.len : Int) - (post.len : Int)) * (self.item_size : Int) := rfl
      have hsub : Slice99_sub self ((self.len : Int) - (post.len : Int)) (self.len : Int) =
          some ⟨Slice99_get self ((self.len : Int) - (post.len : Int)), self.item_size,
            post.len⟩ := by
        have := Slice99_sub_eq (v := self) (s := (self.len : Int) - (post.len : Int))
          (e := (self.len : Int)) hs (by omega) h2 h3
        have htn : ((self.len : Int) - ((self.len : Int) - (post.len : Int))).toNat
            = post.len := by omega
        rwa [htn] at this
      have hszeq : Slice99_size ⟨Slice99_get self ((self.len : Int) - (post.len : Int)),
          self.item_size, post.len⟩ = Slice99_size post := by
        simp [Slice99_size, hsz2]
      refine ⟨memeq m (Slice99_get self ((self.len : Int) - (post.len : Int))) post.ptr
        (Slice99_size post), ?_, ?_, ?_⟩
      · rw [Slice99_primitive_ends_with, if_neg hlt, hsub, Option.map_some']
        rw [Slice99_primitive_eq, if_neg (by rw [hszeq]; simp), hszeq]
      · rw [memeq_iff]
        constructor
        · intro h
          refine ⟨by omega, ?_⟩
          intro t ht
          have := h t ht
          rwa [hstart] at this
        · intro h
          intro t ht
          have := h.2 t ht
          rwa [← hstart] at this
      · intro h0
        have hz : Slice99_size post = 0 := by simp [Slice99_size, h0]
        rw [hz]
        rfl

/-- Witness for C4 (amended) at `self = ⟨10, 1, 4⟩`, `pre = post = ⟨10, 1, 2⟩`
in the all-zero memory, where all checked side conditions hold. -/
theorem C4_witness :
    (∃ b, Slice99_primitive_starts_with ⟨10, 1, 4⟩ ⟨10, 1, 2⟩ (fun _ => 0) = some b ∧
      (b = true ↔ Slice99_size ⟨10, 1, 2⟩ ≤ Slice99_size ⟨10, 1, 4⟩ ∧
        ∀ t < Slice99_size (⟨10, 1, 2⟩ : Slice99),
          (fun _ => (0 : Nat)) ((10 : Int) + (t : Int))
            = (fun _ => (0 : Nat)) ((10 : Int) + (t : Int))) ∧
      ((⟨10, 1, 2⟩ : Slice99).len = 0 → b = true)) ∧
    (∃ b, Slice99_primitive_ends_with ⟨10, 1, 4⟩ ⟨10, 1, 2⟩ (fun _ => 0) = some b ∧
      (b = true ↔ Slice99_size ⟨10, 1, 2⟩ ≤ Slice99_size ⟨10, 1, 4⟩ ∧
        ∀ t < Slice99_size (⟨10, 1, 2⟩ : Slice99),
          (fun _ => (0 : Nat))
              ((10 : Int) + (((⟨10, 1, 4⟩ : Slice99).len : Int)
                - (((⟨10, 1, 2⟩ : Slice99).len : Int))) * (1 : Int) + (t : Int))
            = (fun _ => (0 : Nat)) ((10 : Int) + (t : Int))) ∧
      ((⟨10, 1, 2⟩ : Slice99).len = 0 → b = true)) :=
  C4_affix_amended ⟨10, 1, 4⟩ ⟨10, 1, 2⟩ ⟨10, 1, 2⟩ (fun _ => 0) rfl rfl
    (by decide) (by decide) (by decide) (by decide) (by decide)

/-! ## C10: string round trip -/

/-- C10: for a non-null null-terminated string `str` (the injected
`SLICE99_STRLEN` collaborator agreeing with the memory contents per
`strlenSpec`), `Slice99_from_str` returns the slice `⟨str, 1, strlen str⟩` —
the terminating zero byte is not part of the slice — and `Slice99_c_str` on
that slice with a non-null, sufficiently large, non-overlapping buffer `out`
returns `out` itself and the memory in which the `strlen str` bytes of the
string have been copied to `out` followed by a zero byte, so that `out`
again holds a null-terminated string with the same bytes as `str`. -/
theorem C10_string_roundtrip (strlenFn : Int → Nat) (m : Mem) (str out : Int)
    (hstr : str ≠ 0) (hout : out ≠ 0)
    (hlen : strlenSpec m str (strlenFn str))
    (_hdisj : out + ((strlenFn str : Int) + 1) ≤ str ∨
      str + ((strlenFn str : Int) + 1) ≤ out) :
    ∃ s m2, Slice99_from_str strlenFn str = some s ∧
      s = ⟨str, 1, strlenFn str⟩ ∧
      Slice99_c_str s out m = some (out, m2) ∧
      (∀ t < strlenFn str, m2 (out + (t : Int)) = m (str + (t : Int))) ∧
      m2 (out + (strlenFn str : Int)) = 0 ∧
      strlenSpec m2 out (strlenFn str) := by
  have hfrom : Slice99_from_str strlenFn str = some ⟨str, 1, strlenFn str⟩ := by
    unfold Slice99_from_str
    rw [if_pos hstr]
    exact Slice99_new_eq_some hstr (by decide)
  set n := strlenFn str with hn
  have hsize : Slice99_size ⟨str, 1, n⟩ = n := by simp [Slice99_size]
  set m1 : Mem := memcpy m out str n with hm1
  set m2 : Mem := memset1 m1 (out + (n : Int)) 0 with hm2
  have hcstr : Slice99_c_str ⟨str, 1, n⟩ out m = some (out, m2) := by
    unfold Slice99_c_str
    rw [if_pos hout, hsize]
  have hbytes : ∀ t < n, m2 (out + (t : Int)) = m (str + (t : Int)) := by
    intro t ht
    have hne : out + (t : Int) ≠ out + (n : Int) := by omega
    rw [hm2]
    unfold memset1
    rw [if_neg hne, hm1]
    unfold memcpy
    rw [if_pos (by constructor <;> omega)]
    congr 1
    omega
  have hterm : m2 (out + (n : Int)) = 0 := by
    rw [hm2]
    unfold memset1
    rw [if_pos rfl]
  refine ⟨⟨str, 1, n⟩, m2, hfrom, rfl, hcstr, hbytes, hterm, ?_, ?_⟩
  · intro t ht
    rw [hbytes t ht]
    exact hlen.1 t ht
  · exact hterm

/-- Witness for C10: `str = 100` holding the two bytes `65 66` followed by a
zero, copied out to `out = 200`. -/
theorem C10_witness :
    ∃ s m2,
      Slice99_from_str (fun _ => 2)
          100 = some s ∧
      s = ⟨100, 1, 2⟩ ∧
      Slice99_c_str s 200
          (fun a => if a = 100 then 65 else if a = 101 then 66 else 0) = some (200, m2) ∧
      (∀ t : Nat, t < 2 → m2 ((200 : Int) + (t : Int)) =
        if (100 : Int) + (t : Int) = 100 then 65
        else if (100 : Int) + (t : Int) = 101 then 66 else 0) ∧
      m2 ((200 : Int) + ((2 : Nat) : Int)) = 0 ∧
      strlenSpec m2 200 2 :=
  C10_string_roundtrip (fun _ => 2)
    (fun a => if a = 100 then 65 else if a = 101 then 66 else 0) 100 200
    (by decide) (by decide)
    (by constructor
        · intro t ht
          interval_cases t <;> decide
        · decide)
    (by right; decide)

/-! ## C3: reversal -/

theorem memcpy_apply (m : Mem) (dst src : Int) (n : Nat) (a : Int) :
    memcpy m dst src n a =
      if dst ≤ a ∧ a < dst + (n : Int) then m (src + (a - dst)) else m a := rfl

theorem inRange_iff (a base : Int) (n : Nat) :
    inRange a base n ↔ base ≤ a ∧ a < base + (n : Int) := Iff.rfl

/-- A byte of item `i` never lies inside item `j`'s region when `i ≠ j`. -/
theorem not_inRange_slot (v : Slice99) {i j b : Nat}
    (hb : b < v.item_size) (hne : i ≠ j) :
    ¬ inRange (Slice99_get v (i : Int) + (b : Int)) (Slice99_get v (j : Int)) v.item_size := by
  rw [inRange_iff]
  unfold Slice99_get
  rintro ⟨hlo, hhi⟩
  have hbZ : (b : Int) < (v.item_size : Int) := by exact_mod_cast hb
  have hb0 : (0 : Int) ≤ (b : Int) := by positivity
  rcases lt_or_gt_of_ne hne with hij | hij
  · have key : ((i : Int) + 1) * (v.item_size : Int) ≤ (j : Int) * (v.item_size : Int) := by
      exact_mod_cast Nat.mul_le_mul_right v.item_size (by omega : i + 1 ≤ j)
    rw [add_one_mul] at key
    linarith
  · have key : ((j : Int) + 1) * (v.item_size : Int) ≤ (i : Int) * (v.item_size : Int) := by
      exact_mod_cast Nat.mul_le_mul_right v.item_size (by omega : j + 1 ≤ i)
    rw [add_one_mul] at key
    linarith

/-- A scratch buffer disjoint from the whole slice region is disjoint from
every item's region. -/
theorem backup_disjoint_slot (v : Slice99) (bk : Int)
    (hd : bk + (v.item_size : Int) ≤ v.ptr ∨
      v.ptr + (v.len : Int) * (v.item_size : Int) ≤ bk)
    {j : Nat} (hj : j < v.len) :
    bk + (v.item_size : Int) ≤ Slice99_get v (j : Int) ∨
      Slice99_get v (j : Int) + (v.item_size : Int) ≤ bk := by
  have h1 : ((j : Int) + 1) * (v.item_size : Int) ≤ (v.len : Int) * (v.item_size : Int) := by
    exact_mod_cast Nat.mul_le_mul_right v.item_size (by omega : j + 1 ≤ v.len)
  rw [add_one_mul] at h1
  have h2 : (0 : Int) ≤ (j : Int) * (v.item_size : Int) := by positivity
  unfold Slice99_get
  rcases hd with hd | hd
  · left; linarith
  · right; linarith

/-- A region disjointness fact turned pointwise: a byte of item `j` is not
in the scratch region and vice versa. -/
theorem not_inRange_backup (v : Slice99) (bk : Int) {j b : Nat}
    (hb : b < v.item_size)
    (hd : bk + (v.item_size : Int) ≤ Slice99_get v (j : Int) ∨
      Slice99_get v (j : Int) + (v.item_size : Int) ≤ bk) :
    ¬ inRange (Slice99_get v (j : Int) + (b : Int)) bk v.item_size := by
  rw [inRange_iff]
  have hbZ : (b : Int) < (v.item_size : Int) := by exact_mod_cast hb
  have hb0 : (0 : Int) ≤ (b : Int) := by positivity
  rcases hd with hd | hd <;> · rintro ⟨hlo, hhi⟩; linarith


/-- The specification of `Slice99_swap` at distinct item indices with a
scratch buffer disjoint from both items: the two items are exchanged and
every address outside the two items and the scratch is unchanged. -/
theorem Slice99_swap_spec (v : Slice99) (bk : Int) (i j : Nat) (m : Mem)
    (hbk : bk ≠ 0) (hne : i ≠ j)
    (hdi : bk + (v.item_size : Int) ≤ Slice99_get v (i : Int) ∨
      Slice99_get v (i : Int) + (v.item_size : Int) ≤ bk)
    (hdj : bk + (v.item_size : Int) ≤ Slice99_get v (j : Int) ∨
      Slice99_get v (j : Int) + (v.item_size : Int) ≤ bk) :
    ∃ m2, Slice99_swap v (i : Int) (j : Int) bk m = some m2 ∧
      (∀ b : Nat, b < v.item_size →
        m2 (Slice99_get v (i : Int) + (b : Int)) = m (Slice99_get v (j : Int) + (b : Int)) ∧
        m2 (Slice99_get v (j : Int) + (b : Int)) = m (Slice99_get v (i : Int) + (b : Int))) ∧
      (∀ a, ¬ inRange a (Slice99_get v (i : Int)) v.item_size →
        ¬ inRange a (Slice99_get v (j : Int)) v.item_size →
        ¬ inRange a bk v.item_size → m2 a = m a) := by
  set sz := v.item_size with hszdef
  set gi := Slice99_get v (i : Int) with hgi
  set gj := Slice99_get v (j : Int) with hgj
  refine ⟨memcpy (memcpy (memcpy m bk gi sz) gi gj sz) gj bk sz, ?_, ?_, ?_⟩
  · unfold Slice99_swap
    rw [if_pos hbk]
  · intro b hb
    have hbZ : (b : Int) < (sz : Int) := by exact_mod_cast hb
    have hb0 : (0 : Int) ≤ (b : Int) := by positivity
    have hij : ¬ inRange (gi + (b : Int)) gj sz := not_inRange_slot v hb hne
    have hji : ¬ inRange (gj + (b : Int)) gi sz := not_inRange_slot v hb (Ne.symm hne)
    have hibk : ¬ inRange (gi + (b : Int)) bk sz := not_inRange_backup v bk hb hdi
    have hjbk : ¬ inRange (gj + (b : Int)) bk sz := not_inRange_backup v bk hb hdj
    rw [inRange_iff] at hij hji hibk hjbk
    have e1 : gj + (gi + (b : Int) - gi) = gj + (b : Int) := by ring
    have e2 : bk + (gj + (b : Int) - gj) = bk + (b : Int) := by ring
    have e3 : gi + (bk + (b : Int) - bk) = gi + (b : Int) := by ring
    constructor
    · rw [memcpy_apply, if_neg hij, memcpy_apply, if_pos (by constructor <;> omega), e1,
        memcpy_apply, if_neg hjbk]
    · rw [memcpy_apply, if_pos (by constructor <;> omega), e2, memcpy_apply]
      rw [if_neg (by rcases hdi with h | h <;> · rintro ⟨h1, h2⟩; omega)]
      rw [memcpy_apply, if_pos (by constructor <;> omega), e3]
  · intro a hai haj habk
    rw [inRange_iff] at hai haj habk
    rw [memcpy_apply, if_neg haj, memcpy_apply, if_neg hai, memcpy_apply, if_neg habk]

/-- The invariant of the `Slice99_reverse` loop: running from index `k`
exchanges every remaining pair `(j, len-1-j)` for `k ≤ j < len/2` and leaves
every address outside those pairs and the scratch buffer unchanged. -/
theorem revLoop_spec (v : Slice99) (bk : Int)
    (hbk : bk ≠ 0)
    (hdisj : bk + (v.item_size : Int) ≤ v.ptr ∨
      v.ptr + (v.len : Int) * (v.item_size : Int) ≤ bk) :
    ∀ fuel k m, v.len / 2 - k = fuel →
      ∃ m2, revLoop v bk k m = some m2 ∧
        (∀ j b : Nat, k ≤ j → j < v.len / 2 → b < v.item_size →
          m2 (Slice99_get v (j : Int) + (b : Int))
              = m (Slice99_get v ((v.len - 1 - j : Nat) : Int) + (b : Int)) ∧
          m2 (Slice99_get v ((v.len - 1 - j : Nat) : Int) + (b : Int))
              = m (Slice99_get v (j : Int) + (b : Int))) ∧
        (∀ a, (∀ j : Nat, k ≤ j → j < v.len / 2 →
            ¬ inRange a (Slice99_get v (j : Int)) v.item_size ∧
            ¬ inRange a (Slice99_get v ((v.len - 1 - j : Nat) : Int)) v.item_size) →
          ¬ inRange a bk v.item_size → m2 a = m a) := by
  intro fuel
  induction fuel with
  | zero =>
    intro k m hk
    have hk2 : ¬ k < v.len / 2 := by omega
    refine ⟨m, ?_, ?_, ?_⟩
    · rw [revLoop, dif_neg hk2]
    · intro j b hkj hj hb
      omega
    · intro a _ _
      rfl
  | succ f ih =>
    intro k m hk
    have hklt : k < v.len / 2 := by omega
    have hidx : ((v.len : Int) - (k : Int) - 1) = ((v.len - 1 - k : Nat) : Int) := by omega
    have hkne : k ≠ v.len - 1 - k := by omega
    have hkn : k < v.len := by omega
    have hkn2 : v.len - 1 - k < v.len := by omega
    obtain ⟨m1, hswap, hexch, hother⟩ := Slice99_swap_spec v bk k (v.len - 1 - k) m hbk hkne
      (backup_disjoint_slot v bk hdisj hkn) (backup_disjoint_slot v bk hdisj hkn2)
    obtain ⟨m2, hloop, hA, hB⟩ := ih (k + 1) m1 (by omega)
    refine ⟨m2, ?_, ?_, ?_⟩
    · rw [revLoop, dif_pos hklt, hidx, hswap]
      exact hloop
    · intro j b hkj hj hb
      rcases Nat.eq_or_lt_of_le hkj with heq | hlt2
      · subst heq
        constructor
        · have hstep : m2 (Slice99_get v (k : Int) + (b : Int))
              = m1 (Slice99_get v (k : Int) + (b : Int)) := by
            apply hB
            · intro j2 hj2 hj2half
              exact ⟨not_inRange_slot v hb (by omega : k ≠ j2),
                not_inRange_slot v hb (by omega : k ≠ v.len - 1 - j2)⟩
            · exact not_inRange_backup v bk hb (backup_disjoint_slot v bk hdisj hkn)
          rw [hstep]
          exact (hexch b hb).1
        · have hstep : m2 (Slice99_get v ((v.len - 1 - k : Nat) : Int) + (b : Int))
              = m1 (Slice99_get v ((v.len - 1 - k : Nat) : Int) + (b : Int)) := by
            apply hB
            · intro j2 hj2 hj2half
              exact ⟨not_inRange_slot v hb (by omega : v.len - 1 - k ≠ j2),
                not_inRange_slot v hb (by omega : v.len - 1 - k ≠ v.len - 1 - j2)⟩
            · exact not_inRange_backup v bk hb (backup_disjoint_slot v bk hdisj hkn2)
          rw [hstep]
          exact (hexch b hb).2
      · have hjn : v.len - 1 - j < v.len := by omega
        constructor
        · have h1 := (hA j b hlt2 hj hb).1
          rw [h1]
          apply hother
          · exact not_inRange_slot v hb (by omega : v.len - 1 - j ≠ k)
          · exact not_inRange_slot v hb (by omega : v.len - 1 - j ≠ v.len - 1 - k)
          · exact not_inRange_backup v bk hb (backup_disjoint_slot v bk hdisj hjn)
        · have h1 := (hA j b hlt2 hj hb).2
          rw [h1]
          apply hother
          · exact not_inRange_slot v hb (by omega : j ≠ k)
          · exact not_inRange_slot v hb (by omega : j ≠ v.len - 1 - k)
          · exact not_inRange_backup v bk hb
              (backup_disjoint_slot v bk hdisj (by omega : j < v.len))
    · intro a hcond habk
      have hstep : m2 a = m1 a := by
        apply hB
        · intro j2 hj2 hj2half
          exact hcond j2 (by omega) hj2half
        · exact habk
      rw [hstep]
      exact hother a (hcond k (by omega) hklt).1 (hcond k (by omega) hklt).2 habk

/-- A single `Slice99_reverse` pass: byte `b` of item `i` afterwards holds
byte `b` of item `len-1-i` beforehand, for every `i < len`. -/
theorem Slice99_reverse_perm (v : Slice99) (bk : Int) (m : Mem)
    (hbk : bk ≠ 0)
    (hdisj : bk + (v.item_size : Int) ≤ v.ptr ∨
      v.ptr + (v.len : Int) * (v.item_size : Int) ≤ bk) :
    ∃ m1, Slice99_reverse v bk m = some m1 ∧
      ∀ i b : Nat, i < v.len → b < v.item_size →
        m1 (Slice99_get v (i : Int) + (b : Int))
          = m (Slice99_get v ((v.len - 1 - i : Nat) : Int) + (b : Int)) := by
  obtain ⟨m1, hloop, hA, hB⟩ := revLoop_spec v bk hbk hdisj (v.len / 2) 0 m (by omega)
  refine ⟨m1, ?_, ?_⟩
  · unfold Slice99_reverse
    rw [if_pos hbk]
    exact hloop
  · intro i b hi hb
    by_cases h1 : i < v.len / 2
    · exact (hA i b (by omega) h1 hb).1
    · by_cases h2 : v.len - 1 - i < v.len / 2
      · have h3 := (hA (v.len - 1 - i) b (by omega) h2 hb).2
        have hidx : v.len - 1 - (v.len - 1 - i) = i := by omega
        rwa [hidx] at h3
      · have hmid : v.len - 1 - i = i := by omega
        rw [hmid]
        apply hB
        · intro j2 hj2 hj2half
          exact ⟨not_inRange_slot v hb (by omega : i ≠ j2),
            not_inRange_slot v hb (by omega : i ≠ v.len - 1 - j2)⟩
        · exact not_inRange_backup v bk hb (backup_disjoint_slot v bk hdisj hi)

/-- C3: reversal is an involution.  For every slice `v` (any length) and any
non-null scratch buffer of `item_size` bytes disjoint from `v`'s memory, a
single `Slice99_reverse` moves the element at index `i` to index `len-1-i`
for every `i`, and applying `Slice99_reverse` twice leaves every byte of the
slice's underlying memory equal to its original contents. -/
theorem C3_reverse_involution (v : Slice99) (bk : Int) (m : Mem)
    (_hsz : 0 < v.item_size) (hbk : bk ≠ 0)
    (hdisj : bk + (v.item_size : Int) ≤ v.ptr ∨
      v.ptr + (v.len : Int) * (v.item_size : Int) ≤ bk) :
    ∃ m1 m2, Slice99_reverse v bk m = some m1 ∧ Slice99_reverse v bk m1 = some m2 ∧
      (∀ i b : Nat, i < v.len → b < v.item_size →
        m1 (Slice99_get v ((v.len - 1 - i : Nat) : Int) + (b : Int))
          = m (Slice99_get v (i : Int) + (b : Int))) ∧
      (∀ i b : Nat, i < v.len → b < v.item_size →
        m2 (Slice99_get v (i : Int) + (b : Int)) = m (Slice99_get v (i : Int) + (b : Int))) := by
  obtain ⟨m1, hrev1, hperm1⟩ := Slice99_reverse_perm v bk m hbk hdisj
  obtain ⟨m2, hrev2, hperm2⟩ := Slice99_reverse_perm v bk m1 hbk hdisj
  refine ⟨m1, m2, hrev1, hrev2, ?_, ?_⟩
  · intro i b hi hb
    have h3 := hperm1 (v.len - 1 - i) b (by omega) hb
    have hidx : v.len - 1 - (v.len - 1 - i) = i := by omega
    rwa [hidx] at h3
  · intro i b hi hb
    rw [hperm2 i b hi hb, hperm1 (v.len - 1 - i) b (by omega) hb,
      (by omega : v.len - 1 - (v.len - 1 - i) = i)]

/-- Witness for C3 at `v = ⟨10, 1, 3⟩` (odd length), scratch at `100`, over
the memory `fun a => a.toNat`. -/
theorem C3_witness :
    ∃ m1 m2, Slice99_reverse ⟨10, 1, 3⟩ 100 (fun a => a.toNat) = some m1 ∧
      Slice99_reverse ⟨10, 1, 3⟩ 100 m1 = some m2 ∧
      (∀ i b : Nat, i < (⟨10, 1, 3⟩ : Slice99).len → b < (⟨10, 1, 3⟩ : Slice99).item_size →
        m1 (Slice99_get ⟨10, 1, 3⟩ (((⟨10, 1, 3⟩ : Slice99).len - 1 - i : Nat) : Int) + (b : Int))
          = (fun a => a.toNat) (Slice99_get ⟨10, 1, 3⟩ (i : Int) + (b : Int))) ∧
      (∀ i b : Nat, i < (⟨10, 1, 3⟩ : Slice99).len → b < (⟨10, 1, 3⟩ : Slice99).item_size →
        m2 (Slice99_get ⟨10, 1, 3⟩ (i : Int) + (b : Int))
          = (fun a => a.toNat) (Slice99_get ⟨10, 1, 3⟩ (i : Int) + (b : Int))) :=
  C3_reverse_involution ⟨10, 1, 3⟩ 100 (fun a => a.toNat) (by decide) (by decide)
    (Or.inr (by norm_num))
